import Mathlib

/-!
Verification of the external-natives subsystem (src/natives-external.cc).

The development shallowly embeds the C++ source: bytes are `Nat` values,
byte buffers are `List Nat`, the sequential blob reader is explicit state
passing over a `position` index, and every fatal path (failed `ASSERT` or
`CHECK`) is an `Option.none` result.  `NativesStore` keeps the blob bytes
alongside the decoded `Vector` views so that the zero-copy pointer/length
spans of the C++ code can be evaluated.

The reader type `SnapshotByteSource` (declared in src/snapshot-source-sink.h,
whose implementation is not part of the embedded sources) and the encoder of
the wire format are modelled from the specification, as marked on each such
definition.
-/

namespace v8

/-- The embedding of `Vector<const char>`: a borrowed (offset, length) view
into an ambient byte buffer.  The C++ value is a pointer plus a length; the
pointer is represented as the offset of the first byte inside the buffer the
view borrows from. -/
structure Vector where
  start : Nat
  length : Nat
deriving DecidableEq, Repr

/-- Modelled from the spec: the Cursor (`SnapshotByteSource`, declared in
src/snapshot-source-sink.h, not among the embedded sources) wraps a byte
buffer and a fixed length and maintains an internal position, initially 0. -/
structure SnapshotByteSource where
  data : List Nat
  position : Nat
deriving DecidableEq, Repr

/-- Modelled from the spec: `ReadInt`/`GetInt` of the Cursor.  It consumes a
fixed-width integer at the current position and advances the position; it
fails if fewer bytes than the integer width remain.  The spec leaves the
width and byte order as an opaque contract with the encoder; this model
fixes them as 4 bytes, little endian, and the modelled encoder below uses
the same choice. -/
def GetInt (s : SnapshotByteSource) : Option (Nat × SnapshotByteSource) :=
  match s.data.drop s.position with
  | b0 :: b1 :: b2 :: b3 :: _ =>
      some (b0 + 256 * (b1 + 256 * (b2 + 256 * b3)),
            { data := s.data, position := s.position + 4 })
  | _ => none

/-- Modelled from the spec: `ReadBlob`/`GetBlob` of the Cursor.  It first
reads an int giving the payload length `size`, then reads `size` bytes as the
span, advancing the position past both.  A failure of the length-field read
is a Cursor failure (`none`); when the length field was read but fewer than
`size` bytes remain, the call reports failure to the caller (the `none` in
the first component, the C++ `false` return) with the position already past
the consumed length field, matching the sequential reading order the spec
describes. -/
def GetBlob (s : SnapshotByteSource) : Option (Option Vector × SnapshotByteSource) :=
  match GetInt s with
  | none => none
  | some (size, s1) =>
      if s1.position + size ≤ s1.data.length then
        some (some ⟨s1.position, size⟩, ⟨s1.data, s1.position + size⟩)
      else
        some (none, s1)

/-- Modelled from the spec: `HasMore` of the Cursor is true iff the position
is strictly below the buffer length. -/
def HasMore (s : SnapshotByteSource) : Bool :=
  decide (s.position < s.data.length)

/-- A failed `ASSERT` aborts (the fatal-error policy of the subsystem), which
the embedding renders as `none`; a passing one returns the continuation
value. -/
def ASSERT {α : Type} (cond : Bool) (k : α) : Option α :=
  if cond then some k else none

/-- `CHECK` behaves like `ASSERT` for the purposes of the embedding: a failed
check is fatal. -/
def CHECK {α : Type} (cond : Bool) (k : α) : Option α :=
  if cond then some k else none

/-- The embedding of `NativesStore`.  The two lists embed the C++ `List`
members `native_names_` and `native_source_`; `debugger_count_` is the count
recorded at decode time.  The C++ object stores raw pointers into the
embedder-owned blob; the embedding keeps the blob bytes in `data` so the
borrowed `Vector` views can be evaluated. -/
structure NativesStore where
  data : List Nat
  native_names_ : List Vector
  native_source_ : List Vector
  debugger_count_ : Nat
deriving DecidableEq, Repr

/-- The bytes a `Vector` view denotes inside the buffer `data`. -/
def vecBytes (data : List Nat) (v : Vector) : List Nat :=
  (data.drop v.start).take v.length

/-- `NativesStore::GetBuiltinsCount`: the length of `native_names_`. -/
def GetBuiltinsCount (store : NativesStore) : Nat :=
  store.native_names_.length

/-- `NativesStore::GetDebuggerCount`. -/
def GetDebuggerCount (store : NativesStore) : Nat :=
  store.debugger_count_

/-- `NativesStore::GetScriptName`: `native_names_[index]`, whose bounds check
is a fatal `ASSERT` in the C++ `List`, hence `Option`; the returned view is
rendered as its byte content. -/
def GetScriptName (store : NativesStore) (index : Nat) : Option (List Nat) :=
  (store.native_names_.get? index).map (vecBytes store.data)

/-- `NativesStore::GetRawScriptSource`: `native_source_[index]`, as above. -/
def GetRawScriptSource (store : NativesStore) (index : Nat) : Option (List Nat) :=
  (store.native_source_.get? index).map (vecBytes store.data)

/-- The semantics of C `strcmp(q, p) == 0` where `q` is a NUL-terminated
string with content `q` (the terminator is implicit, `q` itself holding the
bytes before it) and `p` points at `mem`, the bytes from the pointed-to
position to the end of the addressable buffer.  Comparison stops at the first
difference or at a NUL in both; running off the end of the buffer is an
out-of-bounds read in C, which the model renders as a mismatch. -/
def cstrEq : List Nat → List Nat → Bool
  | [], [] => false
  | [], m :: _ => m == 0
  | _ :: _, [] => false
  | q :: qs, m :: ms => q == m && (q == 0 || cstrEq qs ms)

/-- `NativesStore::GetIndex`: a linear scan returning the first `i` whose
stored name matches the query under `strcmp` applied to the span start
pointer (note: not under span-length comparison); when no index matches the
C++ code hits `ASSERT(false)` and (in release) returns -1. -/
def GetIndex (store : NativesStore) (name : List Nat) : Option Int :=
  match store.native_names_.findIdx? (fun v => cstrEq name (store.data.drop v.start)) with
  | some i => some (Int.ofNat i)
  | none => ASSERT false (-1)

/-- `NativesStore::GetRawScriptsSize`: `ASSERT(false); return 0;`. -/
def GetRawScriptsSize (_store : NativesStore) : Option Int :=
  ASSERT false 0

/-- `NativesStore::GetScriptsSource`: `ASSERT(false); return Vector();`. -/
def NativesStore.GetScriptsSource (_store : NativesStore) : Option (List Nat) :=
  ASSERT false []

/-- `NativesStore::ReadNameAndContentPair`: reads the name blob and then the
source blob (the C++ `&&` short-circuits, so the second read happens only
when the first succeeded); only when both succeed are the name vector and the
source vector appended to the two lists.  The returned `Bool` is the C++
`success` value. -/
def ReadNameAndContentPair (store : NativesStore) (bytes : SnapshotByteSource) :
    Option (Bool × NativesStore × SnapshotByteSource) :=
  match GetBlob bytes with
  | none => none
  | some (none, b1) => some (false, store, b1)
  | some (some name, b1) =>
      match GetBlob b1 with
      | none => none
      | some (none, b2) => some (false, store, b2)
      | some (some source, b2) =>
          some (true,
                { store with
                    native_names_ := store.native_names_ ++ [name],
                    native_source_ := store.native_source_ ++ [source] },
                b2)

/-- The `for (int i = 0; i < count; ++i) store->ReadNameAndContentPair(source);`
loops of `MakeFromScriptsSource`: the returned success flag is ignored, as in
the C++ caller, but the updated store and cursor are threaded through. -/
def readPairs : Nat → NativesStore → SnapshotByteSource →
    Option (NativesStore × SnapshotByteSource)
  | 0, store, s => some (store, s)
  | n + 1, store, s =>
      match ReadNameAndContentPair store s with
      | none => none
      | some (_, store1, s1) => readPairs n store1 s1

/-- `NativesStore::MakeFromScriptsSource`: creates an empty store, reads the
debugger count, reads that many pairs, reads the library count, reads that
many pairs, then records the debugger count and returns the store together
with the advanced cursor. -/
def MakeFromScriptsSource (source : SnapshotByteSource) :
    Option (NativesStore × SnapshotByteSource) :=
  match GetInt source with
  | none => none
  | some (debugger_count, s1) =>
      match readPairs debugger_count ⟨source.data, [], [], 0⟩ s1 with
      | none => none
      | some (store1, s2) =>
          match GetInt s2 with
          | none => none
          | some (library_count, s3) =>
              match readPairs library_count store1 s3 with
              | none => none
              | some (store2, s4) =>
                  some ({ store2 with debugger_count_ := debugger_count }, s4)

/-- `NativesHolder<type>::get`: `ASSERT(holder_); return holder_;`.  The
static member `holder_` is passed as explicit state; an empty slot makes the
`ASSERT` fatal. -/
def NativesHolder.get (holder_ : Option NativesStore) : Option NativesStore :=
  match holder_ with
  | some store => some store
  | none => none

/-- `NativesHolder<type>::set`: `ASSERT(store); holder_ = store;`.  Only the
nullness of the argument is checked; the result is the new slot value. -/
def NativesHolder.set (store : Option NativesStore) (_holder_ : Option NativesStore) :
    Option (Option NativesStore) :=
  match store with
  | some s => some (some s)
  | none => none

/-- The embedding of `StartupData`: the embedder-supplied blob bytes
(`raw_size` is the list length). -/
structure StartupData where
  data : List Nat
deriving DecidableEq, Repr

/-- `SetNativesFromFile`: asserts the blob is present and non-empty, wraps it
in a cursor, decodes one store into the CORE slot and a second into the
EXPERIMENTAL slot, and finally asserts the cursor has no bytes left.  The two
holder slots are passed and returned as explicit state. -/
def SetNativesFromFile (natives_blob : StartupData)
    (core_holder exp_holder : Option NativesStore) :
    Option (Option NativesStore × Option NativesStore) :=
  if natives_blob.data.length = 0 then none
  else
    match MakeFromScriptsSource ⟨natives_blob.data, 0⟩ with
    | none => none
    | some (store1, bytes1) =>
        match NativesHolder.set (some store1) core_holder with
        | none => none
        | some core1 =>
            match MakeFromScriptsSource bytes1 with
            | none => none
            | some (store2, bytes2) =>
                match NativesHolder.set (some store2) exp_holder with
                | none => none
                | some exp1 =>
                    if HasMore bytes2 then none
                    else some (core1, exp1)

/-- `NativesCollection<type>::GetScriptsSource`: forwards through
`NativesHolder<type>::get()` to the store stub. -/
def NativesCollection.GetScriptsSource (holder_ : Option NativesStore) :
    Option (List Nat) :=
  match NativesHolder.get holder_ with
  | none => none
  | some store => store.GetScriptsSource

/-- `NativesCollection<type>::GetRawScriptsSize`: forwards through
`NativesHolder<type>::get()` to the store stub. -/
def NativesCollection.GetRawScriptsSize (holder_ : Option NativesStore) :
    Option Int :=
  match NativesHolder.get holder_ with
  | none => none
  | some store => v8.GetRawScriptsSize store

/-- `NativesCollection<type>::SetRawScriptsSource`: `CHECK(false);` — this
blob-backed implementation is populated only by `SetNativesFromFile`. -/
def NativesCollection.SetRawScriptsSource (_raw_source : List Nat)
    (holder_ : Option NativesStore) : Option (Option NativesStore) :=
  CHECK false holder_

/-- Modelled from the spec: the wire encoding of one integer (the encoder
tool sits outside the embedded sources; section 6 of the spec fixes the
format).  Fixed width, 4 bytes, little endian, matching `GetInt`. -/
def encInt (n : Nat) : List Nat :=
  [n % 256, n / 256 % 256, n / 256 / 256 % 256, n / 256 / 256 / 256 % 256]

/-- Modelled from the spec: the wire encoding of one length-prefixed blob,
`len:int  payload:byte[len]`. -/
def encBlob (b : List Nat) : List Nat :=
  encInt b.length ++ b

/-- Modelled from the spec: the wire encoding of one name/source pair,
`nameLen name sourceLen source`. -/
def encPair (p : List Nat × List Nat) : List Nat :=
  encBlob p.1 ++ encBlob p.2

/-- Modelled from the spec: the concatenated encodings of a pair sequence. -/
def encPairs (ps : List (List Nat × List Nat)) : List Nat :=
  (ps.map encPair).flatten

/-- Modelled from the spec: the wire encoding of one Store,
`debuggerCount Pair{debuggerCount} libraryCount Pair{libraryCount}`. -/
def encStore (dbg lib : List (List Nat × List Nat)) : List Nat :=
  encInt dbg.length ++ encPairs dbg ++ encInt lib.length ++ encPairs lib

/-- Reading an encoded integer from the position right after `pre` yields the
integer back and advances exactly past its four bytes. -/
theorem getInt_enc (pre suf : List Nat) (n : Nat) (hn : n < 4294967296) :
    GetInt ⟨pre ++ (encInt n ++ suf), pre.length⟩ =
      some (n, ⟨pre ++ (encInt n ++ suf), pre.length + 4⟩) := by
  have hdrop : (pre ++ (encInt n ++ suf)).drop pre.length = encInt n ++ suf :=
    List.drop_left pre _
  have hval : n % 256 + 256 * (n / 256 % 256 + 256 * (n / 256 / 256 % 256 +
      256 * (n / 256 / 256 / 256 % 256))) = n := by omega
  simp only [GetInt]
  simp only [encInt, List.cons_append, List.nil_append] at hdrop ⊢
  rw [hdrop]
  simp only [hval]

/-- Reading an encoded blob from the position right after `pre` yields the
view of its payload and advances exactly past the length field and the
payload. -/
theorem getBlob_enc (pre b suf : List Nat) (hb : b.length < 4294967296) :
    GetBlob ⟨pre ++ (encBlob b ++ suf), pre.length⟩ =
      some (some ⟨pre.length + 4, b.length⟩,
            ⟨pre ++ (encBlob b ++ suf), pre.length + 4 + b.length⟩) := by
  have hshape : pre ++ (encBlob b ++ suf) = pre ++ (encInt b.length ++ (b ++ suf)) := by
    simp [encBlob]
  rw [hshape]
  have hget := getInt_enc pre (b ++ suf) b.length hb
  have hle : pre.length + 4 + b.length ≤ (pre ++ (encInt b.length ++ (b ++ suf))).length := by
    simp [encInt]
    omega
  simp only [GetBlob, hget, hle, if_pos]

/-- Reading one encoded pair from the position right after `pre` succeeds,
appends the two payload views and advances exactly past the pair. -/
theorem readPair_enc (store : NativesStore) (pre suf nm src : List Nat)
    (h1 : nm.length < 4294967296) (h2 : src.length < 4294967296) :
    ReadNameAndContentPair store ⟨pre ++ (encPair (nm, src) ++ suf), pre.length⟩ =
      some (true,
            { store with
                native_names_ := store.native_names_ ++ [⟨pre.length + 4, nm.length⟩],
                native_source_ :=
                  store.native_source_ ++ [⟨pre.length + 4 + nm.length + 4, src.length⟩] },
            ⟨pre ++ (encPair (nm, src) ++ suf),
             pre.length + 4 + nm.length + 4 + src.length⟩) := by
  have hshape : pre ++ (encPair (nm, src) ++ suf) =
      pre ++ (encBlob nm ++ (encBlob src ++ suf)) := by
    simp [encPair]
  rw [hshape]
  have hb1 := getBlob_enc pre nm (encBlob src ++ suf) h1
  have hcur : (⟨pre ++ (encBlob nm ++ (encBlob src ++ suf)), pre.length + 4 + nm.length⟩ :
      SnapshotByteSource) =
      ⟨(pre ++ encBlob nm) ++ (encBlob src ++ suf), (pre ++ encBlob nm).length⟩ := by
    simp [encBlob, encInt]
    omega
  have hb2 := getBlob_enc (pre ++ encBlob nm) src suf h2
  rw [← hcur] at hb2
  simp only [ReadNameAndContentPair, hb1, hb2]
  simp [encBlob, encInt, List.append_assoc]
  omega

/-- A view placed exactly on `b` denotes `b`. -/
theorem vecBytes_at (pre b suf : List Nat) :
    vecBytes (pre ++ (b ++ suf)) ⟨pre.length, b.length⟩ = b := by
  simp only [vecBytes, List.drop_left, List.take_left]

/-- Shape-flexible form of `vecBytes_at`. -/
theorem vecBytes_shape (L pre b rest : List Nat) (o n : Nat)
    (hL : L = pre ++ (b ++ rest)) (ho : o = pre.length) (hn : n = b.length) :
    vecBytes L ⟨o, n⟩ = b := by
  subst hL ho hn
  exact vecBytes_at pre b rest

/-- Unfolding of the pair-sequence encoding. -/
theorem encPairs_cons (p : List Nat × List Nat) (ps : List (List Nat × List Nat)) :
    encPairs (p :: ps) = encPair p ++ encPairs ps := by
  simp [encPairs]

/-- Running the read loop over an encoded pair sequence succeeds, appends one
name view and one source view per pair — denoting exactly the original
payloads — and advances exactly past the encoded sequence. -/
theorem readPairs_enc (ps : List (List Nat × List Nat)) :
    ∀ (pre suf : List Nat) (store : NativesStore),
    (∀ p ∈ ps, p.1.length < 4294967296 ∧ p.2.length < 4294967296) →
    ∃ nvs svs : List Vector,
      readPairs ps.length store ⟨pre ++ (encPairs ps ++ suf), pre.length⟩ =
        some ({ store with native_names_ := store.native_names_ ++ nvs,
                           native_source_ := store.native_source_ ++ svs },
              ⟨pre ++ (encPairs ps ++ suf), pre.length + (encPairs ps).length⟩) ∧
      nvs.map (vecBytes (pre ++ (encPairs ps ++ suf))) = ps.map Prod.fst ∧
      svs.map (vecBytes (pre ++ (encPairs ps ++ suf))) = ps.map Prod.snd := by
  induction ps with
  | nil =>
      intro pre suf store _
      refine ⟨[], [], ?_, rfl, rfl⟩
      simp [readPairs, encPairs]
  | cons p ps ih =>
      intro pre suf store hb
      obtain ⟨nm, src⟩ := p
      have h1 : nm.length < 4294967296 := (hb (nm, src) (by simp)).1
      have h2 : src.length < 4294967296 := (hb (nm, src) (by simp)).2
      have hb' : ∀ q ∈ ps, q.1.length < 4294967296 ∧ q.2.length < 4294967296 :=
        fun q hq => hb q (by simp [hq])
      have hsh : pre ++ (encPairs ((nm, src) :: ps) ++ suf) =
          pre ++ (encPair (nm, src) ++ (encPairs ps ++ suf)) := by
        simp [encPairs, List.append_assoc]
      have hLL : pre ++ (encPair (nm, src) ++ (encPairs ps ++ suf)) =
          (pre ++ encPair (nm, src)) ++ (encPairs ps ++ suf) :=
        (List.append_assoc _ _ _).symm
      rw [hsh, hLL]
      have hrp := readPair_enc store pre (encPairs ps ++ suf) nm src h1 h2
      rw [hLL] at hrp
      obtain ⟨nvs, svs, hrun, hnm, hsv⟩ := ih (pre ++ encPair (nm, src)) suf
        ({ store with
             native_names_ := store.native_names_ ++ [⟨pre.length + 4, nm.length⟩],
             native_source_ :=
               store.native_source_ ++ [⟨pre.length + 4 + nm.length + 4, src.length⟩] })
        hb'
      have hpos : pre.length + 4 + nm.length + 4 + src.length =
          (pre ++ encPair (nm, src)).length := by
        simp [encPair, encBlob, encInt]
        omega
      rw [hpos] at hrp
      refine ⟨⟨pre.length + 4, nm.length⟩ :: nvs,
              ⟨pre.length + 4 + nm.length + 4, src.length⟩ :: svs, ?_, ?_, ?_⟩
      · simp only [List.length_cons, readPairs, hrp, hrun]
        simp [encPairs_cons, encPair, encBlob, encInt, List.append_assoc]
        omega
      · simp only [List.map_cons, hnm]
        have hhd : vecBytes ((pre ++ encPair (nm, src)) ++ (encPairs ps ++ suf))
            ⟨pre.length + 4, nm.length⟩ = nm := by
          refine vecBytes_shape _ (pre ++ encInt nm.length) nm
            (encBlob src ++ (encPairs ps ++ suf)) _ _ ?_ ?_ rfl
          · simp [encPair, encBlob, List.append_assoc]
          · simp [encInt]
        rw [hhd]
      · simp only [List.map_cons, hsv]
        have hhd : vecBytes ((pre ++ encPair (nm, src)) ++ (encPairs ps ++ suf))
            ⟨pre.length + 4 + nm.length + 4, src.length⟩ = src := by
          refine vecBytes_shape _ (pre ++ (encInt nm.length ++ (nm ++ encInt src.length)))
            src (encPairs ps ++ suf) _ _ ?_ ?_ rfl
          · simp [encPair, encBlob, List.append_assoc]
          · simp [encInt]
            omega
        rw [hhd]

/-- Length of an encoded store. -/
theorem encStore_length (dbg lib : List (List Nat × List Nat)) :
    (encStore dbg lib).length =
      4 + (encPairs dbg).length + 4 + (encPairs lib).length := by
  simp [encStore, encInt]
  omega

/-- Decoding an encoded store placed right after `pre` succeeds, produces a
store whose views denote exactly the original names and sources (debugger
pairs first) with the debugger count recorded, and advances the cursor
exactly past the encoded store. -/
theorem make_enc (dbg lib : List (List Nat × List Nat)) (pre suf : List Nat)
    (hd : dbg.length < 4294967296) (hl : lib.length < 4294967296)
    (hbd : ∀ p ∈ dbg, p.1.length < 4294967296 ∧ p.2.length < 4294967296)
    (hbl : ∀ p ∈ lib, p.1.length < 4294967296 ∧ p.2.length < 4294967296) :
    ∃ nvs svs : List Vector,
      MakeFromScriptsSource ⟨pre ++ (encStore dbg lib ++ suf), pre.length⟩ =
        some ({ data := pre ++ (encStore dbg lib ++ suf), native_names_ := nvs,
                native_source_ := svs, debugger_count_ := dbg.length },
              ⟨pre ++ (encStore dbg lib ++ suf),
               pre.length + (encStore dbg lib).length⟩) ∧
      nvs.map (vecBytes (pre ++ (encStore dbg lib ++ suf))) = (dbg ++ lib).map Prod.fst ∧
      svs.map (vecBytes (pre ++ (encStore dbg lib ++ suf))) = (dbg ++ lib).map Prod.snd := by
  have hE1 : pre ++ (encStore dbg lib ++ suf) =
      pre ++ (encInt dbg.length ++
        (encPairs dbg ++ (encInt lib.length ++ (encPairs lib ++ suf)))) := by
    simp [encStore, List.append_assoc]
  have hE2 : pre ++ (encStore dbg lib ++ suf) =
      (pre ++ encInt dbg.length) ++
        (encPairs dbg ++ (encInt lib.length ++ (encPairs lib ++ suf))) := by
    simp [encStore, List.append_assoc]
  have hE3 : pre ++ (encStore dbg lib ++ suf) =
      (pre ++ encInt dbg.length ++ encPairs dbg) ++
        (encInt lib.length ++ (encPairs lib ++ suf)) := by
    simp [encStore, List.append_assoc]
  have hE4 : pre ++ (encStore dbg lib ++ suf) =
      (pre ++ encInt dbg.length ++ encPairs dbg ++ encInt lib.length) ++
        (encPairs lib ++ suf) := by
    simp [encStore, List.append_assoc]
  have hp1 : (pre ++ encInt dbg.length).length = pre.length + 4 := by
    simp [encInt]
  have hp2 : (pre ++ encInt dbg.length ++ encPairs dbg).length =
      pre.length + 4 + (encPairs dbg).length := by
    simp [encInt]
    omega
  have hp3 : (pre ++ encInt dbg.length ++ encPairs dbg ++ encInt lib.length).length =
      pre.length + 4 + (encPairs dbg).length + 4 := by
    simp [encInt]
    omega
  have h1 := getInt_enc pre
    (encPairs dbg ++ (encInt lib.length ++ (encPairs lib ++ suf))) dbg.length hd
  rw [← hE1] at h1
  obtain ⟨nvs1, svs1, h2, hnm1, hsv1⟩ := readPairs_enc dbg (pre ++ encInt dbg.length)
    (encInt lib.length ++ (encPairs lib ++ suf))
    ⟨pre ++ (encStore dbg lib ++ suf), [], [], 0⟩ hbd
  rw [← hE2] at h2 hnm1 hsv1
  rw [hp1] at h2
  have h3 := getInt_enc (pre ++ encInt dbg.length ++ encPairs dbg)
    (encPairs lib ++ suf) lib.length hl
  rw [← hE3, hp2] at h3
  obtain ⟨nvs2, svs2, h4, hnm2, hsv2⟩ := readPairs_enc lib
    (pre ++ encInt dbg.length ++ encPairs dbg ++ encInt lib.length)
    suf
    ({ (⟨pre ++ (encStore dbg lib ++ suf), [], [], 0⟩ : NativesStore) with
        native_names_ := ([] : List Vector) ++ nvs1,
        native_source_ := ([] : List Vector) ++ svs1 }) hbl
  rw [← hE4] at h4 hnm2 hsv2
  rw [hp3] at h4
  refine ⟨nvs1 ++ nvs2, svs1 ++ svs2, ?_, ?_, ?_⟩
  · simp only [MakeFromScriptsSource, h1, h2, h3, h4]
    simp [encStore_length, List.append_assoc]
    omega
  · simp [List.map_append, hnm1, hnm2]
  · simp [List.map_append, hsv1, hsv2]

/-- Claim C1: for any sequence of N name/source byte-pairs split into a
debugger prefix of size d (0 ≤ d ≤ N) and a library suffix of size N − d,
encoding them in the wire format of spec section 6 and decoding with
`NativesStore::MakeFromScriptsSource` yields a store with
`GetBuiltinsCount() = N`, `GetDebuggerCount() = d`, and for every index
i < N, `GetScriptName i` and `GetRawScriptSource i` equal to the i-th
original name and source. -/
theorem c1_roundtrip (pairs : List (List Nat × List Nat)) (d : Nat)
    (hd : d ≤ pairs.length)
    (hb : ∀ p ∈ pairs, p.1.length < 4294967296 ∧ p.2.length < 4294967296)
    (hc : pairs.length < 4294967296) :
    ∃ store rest,
      MakeFromScriptsSource ⟨encStore (pairs.take d) (pairs.drop d), 0⟩ =
        some (store, rest) ∧
      GetBuiltinsCount store = pairs.length ∧
      GetDebuggerCount store = d ∧
      ∀ (i : Nat) (hi : i < pairs.length),
        GetScriptName store i = some (pairs.get ⟨i, hi⟩).1 ∧
        GetRawScriptSource store i = some (pairs.get ⟨i, hi⟩).2 := by
  obtain ⟨nvs, svs, hmk, hnm, hsv⟩ := make_enc (pairs.take d) (pairs.drop d) [] []
    (by simp [List.length_take]; omega) (by simp; omega)
    (fun p hp => hb p (List.take_subset _ _ hp))
    (fun p hp => hb p (List.drop_subset _ _ hp))
  simp only [List.nil_append, List.append_nil, List.length_nil,
    List.take_append_drop] at hmk hnm hsv
  refine ⟨_, _, hmk, ?_, ?_, ?_⟩
  · have hlen := congrArg List.length hnm
    simpa [GetBuiltinsCount] using hlen
  · simp [GetDebuggerCount, List.length_take]
    omega
  · intro i hi
    constructor
    · have h1 : (nvs.map (vecBytes (encStore (pairs.take d) (pairs.drop d)))).get? i =
          (pairs.map Prod.fst).get? i := by rw [hnm]
      rw [List.get?_map, List.get?_map, List.get?_eq_get hi] at h1
      simpa [GetScriptName] using h1
    · have h1 : (svs.map (vecBytes (encStore (pairs.take d) (pairs.drop d)))).get? i =
          (pairs.map Prod.snd).get? i := by rw [hsv]
      rw [List.get?_map, List.get?_map, List.get?_eq_get hi] at h1
      simpa [GetRawScriptSource] using h1

/-- Witness for C1 at a concrete input: one pair, debugger prefix of size 1. -/
theorem c1_roundtrip_w :
    ∃ store rest,
      MakeFromScriptsSource
          ⟨encStore ([([97], [98, 99])].take 1) ([([97], [98, 99])].drop 1), 0⟩ =
        some (store, rest) ∧
      GetBuiltinsCount store = [([97], [98, 99])].length ∧
      GetDebuggerCount store = 1 ∧
      ∀ (i : Nat) (hi : i < [([97], [98, 99])].length),
        GetScriptName store i = some ([([97], [98, 99])].get ⟨i, hi⟩).1 ∧
        GetRawScriptSource store i = some ([([97], [98, 99])].get ⟨i, hi⟩).2 :=
  c1_roundtrip [([97], [98, 99])] 1 (by decide) (by decide) (by decide)

/-- Claim C2, counterexample: on the truncated input
[1,0,0,0, 5,0,0,0, 0,0,0,0] (debugger count 1, then a blob whose length
field says 5 with only 4 bytes left), the `GetBlob` the decode performs at
position 4 reports failure, yet `MakeFromScriptsSource` returns a store
normally instead of propagating the failure. -/
theorem c2_cex :
    GetBlob ⟨[1, 0, 0, 0, 5, 0, 0, 0, 0, 0, 0, 0], 4⟩ =
      some (none, ⟨[1, 0, 0, 0, 5, 0, 0, 0, 0, 0, 0, 0], 8⟩) ∧
    MakeFromScriptsSource ⟨[1, 0, 0, 0, 5, 0, 0, 0, 0, 0, 0, 0], 0⟩ =
      some (⟨[1, 0, 0, 0, 5, 0, 0, 0, 0, 0, 0, 0], [], [], 1⟩,
            ⟨[1, 0, 0, 0, 5, 0, 0, 0, 0, 0, 0, 0], 12⟩) :=
  ⟨rfl, rfl⟩

/-- Claim C2, amended: a `ReadInt` (count or blob length field) failure makes
the decode as a whole fail, but a blob payload-insufficiency failure inside
`ReadNameAndContentPair` is not propagated — the loop of
`MakeFromScriptsSource` ignores the success flag and continues with the pair
skipped, so the decode can still return a normally-constructed store.  The
conjuncts cover every `ReadInt` failure site: a blob length-field failure is
a `GetBlob` failure, which fails the pair read, which fails the enclosing
loop; the initial debugger-count failure, a failure of either loop, and the
library-count failure each fail the decode; finally, a soft (`false`) pair
result is swallowed and the loop merely continues. -/
theorem c2_amended :
    (∀ b : SnapshotByteSource, GetInt b = none → GetBlob b = none) ∧
    (∀ (store : NativesStore) (bytes b1 : SnapshotByteSource) (v : Vector),
      (GetBlob bytes = none ∨
       (GetBlob bytes = some (some v, b1) ∧ GetBlob b1 = none)) →
      ReadNameAndContentPair store bytes = none) ∧
    (∀ (n : Nat) (store : NativesStore) (s : SnapshotByteSource),
      ReadNameAndContentPair store s = none → readPairs (n + 1) store s = none) ∧
    (∀ s : SnapshotByteSource, GetInt s = none → MakeFromScriptsSource s = none) ∧
    (∀ (s s1 : SnapshotByteSource) (dc : Nat),
      GetInt s = some (dc, s1) →
      readPairs dc ⟨s.data, [], [], 0⟩ s1 = none →
      MakeFromScriptsSource s = none) ∧
    (∀ (s s1 s2 : SnapshotByteSource) (dc : Nat) (store1 : NativesStore),
      GetInt s = some (dc, s1) →
      readPairs dc ⟨s.data, [], [], 0⟩ s1 = some (store1, s2) →
      GetInt s2 = none →
      MakeFromScriptsSource s = none) ∧
    (∀ (s s1 s2 s3 : SnapshotByteSource) (dc lc : Nat) (store1 : NativesStore),
      GetInt s = some (dc, s1) →
      readPairs dc ⟨s.data, [], [], 0⟩ s1 = some (store1, s2) →
      GetInt s2 = some (lc, s3) →
      readPairs lc store1 s3 = none →
      MakeFromScriptsSource s = none) ∧
    (∀ (n : Nat) (store store1 : NativesStore) (s s1 : SnapshotByteSource),
      ReadNameAndContentPair store s = some (false, store1, s1) →
      readPairs (n + 1) store s = readPairs n store1 s1) := by
  refine ⟨?_, ?_, ?_, ?_, ?_, ?_, ?_, ?_⟩
  · intro b hb
    simp [GetBlob, hb]
  · intro store bytes b1 v h
    rcases h with h | ⟨h1, h2⟩
    · simp [ReadNameAndContentPair, h]
    · simp [ReadNameAndContentPair, h1, h2]
  · intro n store s h
    simp [readPairs, h]
  · intro s hs
    simp [MakeFromScriptsSource, hs]
  · intro s s1 dc h1 h2
    simp [MakeFromScriptsSource, h1, h2]
  · intro s s1 s2 dc store1 h1 h2 h3
    simp [MakeFromScriptsSource, h1, h2, h3]
  · intro s s1 s2 s3 dc lc store1 h1 h2 h3 h4
    simp [MakeFromScriptsSource, h1, h2, h3, h4]
  · intro n store store1 s s1 h
    simp [readPairs, h]

/-- Witness for C2 as amended, one concrete instance per conjunct: an empty
cursor fails `GetBlob` through its length field; a hard blob failure fails a
pair read; a failed pair read fails the loop; an empty input fails the
decode at the debugger count; `[1,0,0,0]` fails it inside the debugger loop
(name length field truncated); `[0,0,0,0]` fails it at the library count;
`[0,0,0,0,1,0,0,0]` fails it inside the library loop; and a truncated name
payload (`[5,0,0,0]`) is skipped while the loop continues. -/
theorem c2_amended_w :
    GetBlob ⟨[], 0⟩ = none ∧
    ReadNameAndContentPair ⟨[], [], [], 0⟩ ⟨[], 0⟩ = none ∧
    readPairs 1 ⟨[], [], [], 0⟩ ⟨[], 0⟩ = none ∧
    MakeFromScriptsSource ⟨[], 0⟩ = none ∧
    MakeFromScriptsSource ⟨[1, 0, 0, 0], 0⟩ = none ∧
    MakeFromScriptsSource ⟨[0, 0, 0, 0], 0⟩ = none ∧
    MakeFromScriptsSource ⟨[0, 0, 0, 0, 1, 0, 0, 0], 0⟩ = none ∧
    readPairs 1 ⟨[], [], [], 0⟩ ⟨[5, 0, 0, 0], 0⟩ =
      readPairs 0 ⟨[], [], [], 0⟩ ⟨[5, 0, 0, 0], 4⟩ :=
  ⟨c2_amended.1 ⟨[], 0⟩ rfl,
   c2_amended.2.1 ⟨[], [], [], 0⟩ ⟨[], 0⟩ ⟨[], 0⟩ ⟨0, 0⟩ (Or.inl rfl),
   c2_amended.2.2.1 0 ⟨[], [], [], 0⟩ ⟨[], 0⟩ rfl,
   c2_amended.2.2.2.1 ⟨[], 0⟩ rfl,
   c2_amended.2.2.2.2.1 ⟨[1, 0, 0, 0], 0⟩ ⟨[1, 0, 0, 0], 4⟩ 1 rfl rfl,
   c2_amended.2.2.2.2.2.1 ⟨[0, 0, 0, 0], 0⟩ ⟨[0, 0, 0, 0], 4⟩ ⟨[0, 0, 0, 0], 4⟩ 0
     ⟨[0, 0, 0, 0], [], [], 0⟩ rfl rfl rfl,
   c2_amended.2.2.2.2.2.2.1 ⟨[0, 0, 0, 0, 1, 0, 0, 0], 0⟩
     ⟨[0, 0, 0, 0, 1, 0, 0, 0], 4⟩ ⟨[0, 0, 0, 0, 1, 0, 0, 0], 4⟩
     ⟨[0, 0, 0, 0, 1, 0, 0, 0], 8⟩ 0 1 ⟨[0, 0, 0, 0, 1, 0, 0, 0], [], [], 0⟩
     rfl rfl rfl rfl,
   c2_amended.2.2.2.2.2.2.2 0 ⟨[], [], [], 0⟩ ⟨[], [], [], 0⟩ ⟨[5, 0, 0, 0], 0⟩
     ⟨[5, 0, 0, 0], 4⟩ rfl⟩

/-- Claim C3, counterexample: `NativesHolder::set` on an occupied slot does
not fail fatally; it succeeds and overwrites the slot with the new store, so
an occupied slot can change. -/
theorem c3_cex :
    NativesHolder.set (some ⟨[], [], [], 1⟩) (some ⟨[], [], [], 0⟩) =
      some (some ⟨[], [], [], 1⟩) ∧
    (⟨[], [], [], 1⟩ : NativesStore) ≠ ⟨[], [], [], 0⟩ :=
  ⟨rfl, by decide⟩

/-- Claim C3, amended: `NativesHolder::set` checks only that the store
argument is non-null (`ASSERT(store)`): a null argument is fatal, and any
non-null argument is installed unconditionally, whether the slot was empty
or occupied — occupancy is never checked, so set-once is a caller
discipline, not an enforced invariant. -/
theorem c3_amended :
    (∀ (holder_ : Option NativesStore) (s : NativesStore),
      NativesHolder.set (some s) holder_ = some (some s)) ∧
    (∀ holder_ : Option NativesStore, NativesHolder.set none holder_ = none) :=
  ⟨fun _ _ => rfl, fun _ => rfl⟩

/-- Claim C4 (code bug), evaluation at the failing input: in the store
decoded from the blob holding one library pair with name "ab" and source
"x", the stored name at index 0 equals the query [97, 98] byte-for-byte
over its recorded length, yet `GetIndex` finds no match and hits
`ASSERT(false)`: `strcmp` keeps comparing past the recorded length of the
span into the adjacent source-length byte (1), where the terminator of the
query mismatches. -/
theorem c4_code_bug :
    MakeFromScriptsSource
        ⟨[0, 0, 0, 0, 1, 0, 0, 0, 2, 0, 0, 0, 97, 98, 1, 0, 0, 0, 120], 0⟩ =
      some (⟨[0, 0, 0, 0, 1, 0, 0, 0, 2, 0, 0, 0, 97, 98, 1, 0, 0, 0, 120],
             [⟨12, 2⟩], [⟨18, 1⟩], 0⟩,
            ⟨[0, 0, 0, 0, 1, 0, 0, 0, 2, 0, 0, 0, 97, 98, 1, 0, 0, 0, 120], 19⟩) ∧
    GetScriptName ⟨[0, 0, 0, 0, 1, 0, 0, 0, 2, 0, 0, 0, 97, 98, 1, 0, 0, 0, 120],
             [⟨12, 2⟩], [⟨18, 1⟩], 0⟩ 0 = some [97, 98] ∧
    GetIndex ⟨[0, 0, 0, 0, 1, 0, 0, 0, 2, 0, 0, 0, 97, 98, 1, 0, 0, 0, 120],
             [⟨12, 2⟩], [⟨18, 1⟩], 0⟩ [97, 98] = none :=
  ⟨rfl, rfl, by decide⟩

/-- Claim C5, counterexample: the input [1,0,0,0, 5,0,0,0, 0,0,0,0] decodes
normally (see C2) into a store whose builtins count 0 is strictly below its
debugger count 1. -/
theorem c5_cex :
    MakeFromScriptsSource ⟨[1, 0, 0, 0, 5, 0, 0, 0, 0, 0, 0, 0], 0⟩ =
      some (⟨[1, 0, 0, 0, 5, 0, 0, 0, 0, 0, 0, 0], [], [], 1⟩,
            ⟨[1, 0, 0, 0, 5, 0, 0, 0, 0, 0, 0, 0], 12⟩) ∧
    GetBuiltinsCount ⟨[1, 0, 0, 0, 5, 0, 0, 0, 0, 0, 0, 0], [], [], 1⟩ <
      GetDebuggerCount ⟨[1, 0, 0, 0, 5, 0, 0, 0, 0, 0, 0, 0], [], [], 1⟩ :=
  ⟨rfl, by decide⟩

/-- Claim C5, amended: `GetDebuggerCount ≤ GetBuiltinsCount` holds for every
store decoded from a well-formed section 6 encoding; it can fail for a store
returned from a truncated input, because a swallowed pair-read failure (see
C2) leaves the recorded debugger count above the number of stored pairs. -/
theorem c5_amended (dbg lib : List (List Nat × List Nat)) (store : NativesStore)
    (rest : SnapshotByteSource)
    (hd : dbg.length < 4294967296) (hl : lib.length < 4294967296)
    (hbd : ∀ p ∈ dbg, p.1.length < 4294967296 ∧ p.2.length < 4294967296)
    (hbl : ∀ p ∈ lib, p.1.length < 4294967296 ∧ p.2.length < 4294967296)
    (h : MakeFromScriptsSource ⟨encStore dbg lib, 0⟩ = some (store, rest)) :
    GetDebuggerCount store ≤ GetBuiltinsCount store := by
  obtain ⟨nvs, svs, hmk, hnm, hsv⟩ := make_enc dbg lib [] [] hd hl hbd hbl
  simp only [List.nil_append, List.append_nil, List.length_nil] at hmk
  have heq := hmk.symm.trans h
  simp only [Option.some.injEq, Prod.mk.injEq] at heq
  obtain ⟨hst, _⟩ := heq
  have hlen : nvs.length = dbg.length + lib.length := by
    have := congrArg List.length hnm
    simpa using this
  rw [← hst]
  simp [GetDebuggerCount, GetBuiltinsCount, hlen]

/-- Witness for C5 as amended, at the encoding of one debugger pair and no
library pairs. -/
theorem c5_amended_w :
    GetDebuggerCount ⟨[1, 0, 0, 0, 1, 0, 0, 0, 97, 1, 0, 0, 0, 98, 0, 0, 0, 0],
        [⟨8, 1⟩], [⟨13, 1⟩], 1⟩ ≤
      GetBuiltinsCount ⟨[1, 0, 0, 0, 1, 0, 0, 0, 97, 1, 0, 0, 0, 98, 0, 0, 0, 0],
        [⟨8, 1⟩], [⟨13, 1⟩], 1⟩ :=
  c5_amended [([97], [98])] [] _ _ (by decide) (by decide) (by decide) (by decide) rfl

/-- Claim C6: a blob holding exactly two well-formed stores decodes fully —
after both stores are decoded and installed the cursor has `HasMore = false`
and `SetNativesFromFile` returns normally — while the same blob with one
extra trailing byte makes the post-decode assertion fail, so
`SetNativesFromFile` is fatal. -/
theorem c6_full_consumption (d1 l1 d2 l2 : List (List Nat × List Nat))
    (core exper : Option NativesStore)
    (h1 : d1.length < 4294967296) (h2 : l1.length < 4294967296)
    (h3 : d2.length < 4294967296) (h4 : l2.length < 4294967296)
    (hb1 : ∀ p ∈ d1, p.1.length < 4294967296 ∧ p.2.length < 4294967296)
    (hb2 : ∀ p ∈ l1, p.1.length < 4294967296 ∧ p.2.length < 4294967296)
    (hb3 : ∀ p ∈ d2, p.1.length < 4294967296 ∧ p.2.length < 4294967296)
    (hb4 : ∀ p ∈ l2, p.1.length < 4294967296 ∧ p.2.length < 4294967296) :
    (∃ store1 store2 rest1 rest2,
      MakeFromScriptsSource ⟨encStore d1 l1 ++ encStore d2 l2, 0⟩ =
        some (store1, rest1) ∧
      MakeFromScriptsSource rest1 = some (store2, rest2) ∧
      HasMore rest2 = false ∧
      SetNativesFromFile ⟨encStore d1 l1 ++ encStore d2 l2⟩ core exper =
        some (some store1, some store2)) ∧
    (∀ b : Nat, SetNativesFromFile ⟨encStore d1 l1 ++ encStore d2 l2 ++ [b]⟩
        core exper = none) := by
  constructor
  · obtain ⟨nvs1, svs1, hmk1, -, -⟩ :=
      make_enc d1 l1 [] (encStore d2 l2) h1 h2 hb1 hb2
    obtain ⟨nvs2, svs2, hmk2, -, -⟩ :=
      make_enc d2 l2 (encStore d1 l1) [] h3 h4 hb3 hb4
    simp only [List.nil_append, List.length_nil, Nat.zero_add] at hmk1
    simp only [List.append_nil] at hmk2
    have hmore : HasMore ⟨encStore d1 l1 ++ encStore d2 l2,
        (encStore d1 l1).length + (encStore d2 l2).length⟩ = false := by
      simp [HasMore]
    have hne : ¬ (encStore d1 l1 ++ encStore d2 l2).length = 0 := by
      simp [encStore_length]
    refine ⟨_, _, _, _, hmk1, hmk2, hmore, ?_⟩
    simp only [SetNativesFromFile, hne, if_false, hmk1, hmk2,
      NativesHolder.set, hmore, Bool.false_eq_true, if_neg]
  · intro b
    obtain ⟨nvs1, svs1, hmk1, -, -⟩ :=
      make_enc d1 l1 [] (encStore d2 l2 ++ [b]) h1 h2 hb1 hb2
    obtain ⟨nvs2, svs2, hmk2, -, -⟩ :=
      make_enc d2 l2 (encStore d1 l1) [b] h3 h4 hb3 hb4
    simp only [List.nil_append, List.length_nil, Nat.zero_add] at hmk1
    have hassoc : encStore d1 l1 ++ (encStore d2 l2 ++ [b]) =
        encStore d1 l1 ++ encStore d2 l2 ++ [b] :=
      (List.append_assoc _ _ _).symm
    rw [hassoc] at hmk1 hmk2
    have hmore : HasMore ⟨encStore d1 l1 ++ encStore d2 l2 ++ [b],
        (encStore d1 l1).length + (encStore d2 l2).length⟩ = true := by
      simp [HasMore]
    have hne : ¬ (encStore d1 l1 ++ encStore d2 l2 ++ [b]).length = 0 := by
      simp
    simp only [SetNativesFromFile, hne, if_false, hmk1, hmk2,
      NativesHolder.set, hmore, if_true]

/-- Witness for C6 at two concrete stores (each empty: zero debugger and
zero library pairs) and the trailing byte 7. -/
theorem c6_full_consumption_w :
    (∃ store1 store2 rest1 rest2,
      MakeFromScriptsSource ⟨encStore [] [] ++ encStore [] [], 0⟩ =
        some (store1, rest1) ∧
      MakeFromScriptsSource rest1 = some (store2, rest2) ∧
      HasMore rest2 = false ∧
      SetNativesFromFile ⟨encStore [] [] ++ encStore [] []⟩ none none =
        some (some store1, some store2)) ∧
    (∀ b : Nat, SetNativesFromFile ⟨encStore [] [] ++ encStore [] [] ++ [b]⟩
        none none = none) :=
  c6_full_consumption [] [] [] [] none none (by decide) (by decide) (by decide)
    (by decide) (by decide) (by decide) (by decide) (by decide)

/-- Claim C7: the two unsupported-operation stubs are fatal on every store
and every invocation — `GetRawScriptsSize` and `GetScriptsSource` hit
`ASSERT(false)` both at the store level and through the facade — and never
return a size or a buffer. -/
theorem c7_stubs (store : NativesStore) (holder_ : Option NativesStore) :
    GetRawScriptsSize store = none ∧
    store.GetScriptsSource = none ∧
    NativesCollection.GetRawScriptsSize holder_ = none ∧
    NativesCollection.GetScriptsSource holder_ = none := by
  refine ⟨rfl, rfl, ?_, ?_⟩ <;> cases holder_ <;> rfl

/-- Claim C8: the facade mutation entry point
`NativesCollection::SetRawScriptsSource` is `CHECK(false)` — unconditionally
fatal for every argument and every holder state. -/
theorem c8_set_raw_fatal (raw_source : List Nat) (holder_ : Option NativesStore) :
    NativesCollection.SetRawScriptsSource raw_source holder_ = none :=
  rfl

/-- One pair read leaves the store unchanged or appends exactly one name
view and one source view. -/
theorem readPair_step (store : NativesStore) (bytes : SnapshotByteSource)
    (ok : Bool) (store1 : NativesStore) (b1 : SnapshotByteSource)
    (h : ReadNameAndContentPair store bytes = some (ok, store1, b1)) :
    store1 = store ∨
    ∃ v w : Vector,
      store1 = { store with native_names_ := store.native_names_ ++ [v],
                            native_source_ := store.native_source_ ++ [w] } := by
  simp only [ReadNameAndContentPair] at h
  split at h
  · cases h
  · simp only [Option.some.injEq, Prod.mk.injEq] at h
    exact Or.inl h.2.1.symm
  · split at h
    · cases h
    · simp only [Option.some.injEq, Prod.mk.injEq] at h
      exact Or.inl h.2.1.symm
    · simp only [Option.some.injEq, Prod.mk.injEq] at h
      exact Or.inr ⟨_, _, h.2.1.symm⟩

/-- The read loop preserves equality of the two list lengths. -/
theorem readPairs_balance (n : Nat) :
    ∀ (store : NativesStore) (s : SnapshotByteSource) (store1 : NativesStore)
      (s1 : SnapshotByteSource),
    readPairs n store s = some (store1, s1) →
    store.native_names_.length = store.native_source_.length →
    store1.native_names_.length = store1.native_source_.length := by
  induction n with
  | zero =>
      intro store s store1 s1 h hbal
      simp only [readPairs, Option.some.injEq, Prod.mk.injEq] at h
      rw [← h.1]
      exact hbal
  | succ n ih =>
      intro store s store1 s1 h hbal
      simp only [readPairs] at h
      cases hr : ReadNameAndContentPair store s with
      | none => rw [hr] at h; cases h
      | some t =>
          obtain ⟨ok, store2, s2⟩ := t
          rw [hr] at h
          refine ih store2 s2 store1 s1 h ?_
          rcases readPair_step store s ok store2 s2 hr with he | ⟨v, w, he⟩
          · rw [he]; exact hbal
          · rw [he]; simp [hbal]

/-- Claim C9: every store returned by `MakeFromScriptsSource` has name and
source lists of equal length — `ReadNameAndContentPair` appends to both
lists or to neither. -/
theorem c9_lists_aligned (source : SnapshotByteSource) (store : NativesStore)
    (rest : SnapshotByteSource)
    (h : MakeFromScriptsSource source = some (store, rest)) :
    store.native_names_.length = store.native_source_.length := by
  simp only [MakeFromScriptsSource] at h
  split at h
  · cases h
  · split at h
    · cases h
    · split at h
      · cases h
      · split at h
        · cases h
        · rename_i x1 dc s1 hget1 x2 store1 s2 hloop1 x3 lc s3 hget2 x4 store2 s4 hloop2
          simp only [Option.some.injEq, Prod.mk.injEq] at h
          have hb1 := readPairs_balance dc ⟨source.data, [], [], 0⟩ s1 store1 s2
            hloop1 rfl
          have hb2 := readPairs_balance lc store1 s3 store2 s4 hloop2 hb1
          rw [← h.1]
          simpa using hb2

/-- Witness for C9: the decode of an eight-zero-byte blob (both counts 0). -/
theorem c9_lists_aligned_w :
    (⟨[0, 0, 0, 0, 0, 0, 0, 0], [], [], 0⟩ : NativesStore).native_names_.length =
      (⟨[0, 0, 0, 0, 0, 0, 0, 0], [], [], 0⟩ : NativesStore).native_source_.length :=
  c9_lists_aligned ⟨[0, 0, 0, 0, 0, 0, 0, 0], 0⟩ ⟨[0, 0, 0, 0, 0, 0, 0, 0], [], [], 0⟩
    ⟨[0, 0, 0, 0, 0, 0, 0, 0], 8⟩ rfl

/-- Claim C10: `ReadNameAndContentPair` is atomic on failure — whenever the
name-blob read or the source-blob read reports failure, the call returns
`false` with the store unchanged (no name is added without its source). -/
theorem c10_atomic (store : NativesStore) (bytes b1 : SnapshotByteSource)
    (v : Vector)
    (h : GetBlob bytes = some (none, b1) ∨
         (GetBlob bytes = some (some v, b1) ∧
          ∃ b2, GetBlob b1 = some (none, b2))) :
    ∃ b3, ReadNameAndContentPair store bytes = some (false, store, b3) := by
  rcases h with h | ⟨h, b2, h2⟩
  · exact ⟨b1, by simp [ReadNameAndContentPair, h]⟩
  · exact ⟨b2, by simp [ReadNameAndContentPair, h, h2]⟩

/-- Witness for C10: a cursor whose name-blob payload is truncated leaves an
empty store unchanged. -/
theorem c10_atomic_w :
    ∃ b3, ReadNameAndContentPair ⟨[], [], [], 0⟩ ⟨[5, 0, 0, 0], 0⟩ =
      some (false, ⟨[], [], [], 0⟩, b3) :=
  c10_atomic ⟨[], [], [], 0⟩ ⟨[5, 0, 0, 0], 0⟩ ⟨[5, 0, 0, 0], 4⟩ ⟨0, 0⟩
    (Or.inl rfl)

end v8
